import Mathlib

/-!
Verification of the layout-solver driver (`src/compute/mod.rs`) of the taffy
layout library: the public entry point `compute_layout`, the dispatch
`compute_node_layout`, the five-slot result cache (`compute_cache_slot`,
`compute_from_cache`), the hidden-subtree pass `perform_hidden_layout`, and the
rounding pass `round_layout`.

`f32` values are shallowly embedded as rationals (`ℚ`): every operation the
embedded code performs (addition, comparison, equality, rounding) is exact on
the values appearing in the claims.  The supporting types (geometry, style,
cache entry, layout record) live outside the excerpted source and are modelled
from the specification, as are the `round` and `is_roughly_equal` helpers; each
such definition is marked `Modelled from the spec:`.  The leaf / flexbox / grid
algorithms invoked by the dispatch are not part of the excerpt either: the
dispatch is embedded parametrically in an `Algorithms` record, so every theorem
about the driver holds for every instantiation of those algorithms, the real
ones included.
-/

/- The rational arithmetic primitives are `@[irreducible]` in Batteries, which
stops `decide` from evaluating concrete scenarios; restore the default
reducibility so that closed computations over ℚ reduce. -/
set_option allowUnsafeReducibility true in
attribute [semireducible] Rat.add Rat.sub Rat.mul Rat.div Rat.neg Rat.inv

namespace Taffy

/-- Modelled from the spec: the two-field geometry `Size` type, parametric in
the coordinate type (width, height). -/
structure Size (α : Type) where
  width : α
  height : α
deriving DecidableEq, Repr

/-- Modelled from the spec: the two-field geometry `Point` type (x, y). -/
structure Point (α : Type) where
  x : α
  y : α
deriving DecidableEq, Repr

/-- Modelled from the spec: `AvailableSpace = MinContent | MaxContent |
Definite(f32)`, axis-independent. -/
inductive AvailableSpace where
  | Definite : ℚ → AvailableSpace
  | MinContent : AvailableSpace
  | MaxContent : AvailableSpace
deriving DecidableEq, Repr

/-- Modelled from the spec: `RunMode` — `PerformLayout` must materialize child
layouts, `ComputeSize` may return a size only.  The source spells the first
variant `PeformLayout`; the embedding keeps the source's spelling. -/
inductive RunMode where
  | PeformLayout : RunMode
  | ComputeSize : RunMode
deriving DecidableEq, Repr

/-- Modelled from the spec: `SizingMode` — `InherentSize` uses the node's own
size styles, `ContentSize` defers to child content. -/
inductive SizingMode where
  | InherentSize : SizingMode
  | ContentSize : SizingMode
deriving DecidableEq, Repr

/-- Modelled from the spec: `display ∈ Flex, Grid, None`. -/
inductive Display where
  | Flex : Display
  | Grid : Display
  | None : Display
deriving DecidableEq, Repr

/-- Modelled from the spec: `Dimension` is the tagged union
`Auto | Points(f32) | Percent(f32)`. -/
inductive Dimension where
  | Auto : Dimension
  | Points : ℚ → Dimension
  | Percent : ℚ → Dimension
deriving DecidableEq, Repr

/-- Modelled from the spec: the style record, restricted to the fields the
embedded driver reads (`display`) plus the `size` field consumed by the
spec-modelled leaf algorithm.  The remaining style properties are not
inspected by any code under verification. -/
structure Style where
  display : Display
  size : Size Dimension
deriving DecidableEq, Repr

/-- Modelled from the spec: the per-node layout result
`( order: u32, size: Size<f32>, location: Point<f32> )`. -/
structure Layout where
  order : ℕ
  size : Size ℚ
  location : Point ℚ
deriving DecidableEq, Repr

/-- Modelled from the spec: a cache entry
`( known_dimensions, available_space, run_mode, cached_size )`. -/
structure Cache where
  known_dimensions : Size (Option ℚ)
  available_space : Size AvailableSpace
  run_mode : RunMode
  cached_size : Size ℚ
deriving DecidableEq, Repr

/-- Modelled from the spec: each node holds a fixed-length array of five
optional cache entries (`CACHE_SIZE = 5`). -/
structure CacheArray where
  slot0 : Option Cache
  slot1 : Option Cache
  slot2 : Option Cache
  slot3 : Option Cache
  slot4 : Option Cache
deriving DecidableEq, Repr

/-- Modelled from the spec: the single surfaced error kind
`InvalidInputNode(node)`. -/
inductive TaffyError where
  | InvalidInputNode : ℕ → TaffyError
deriving DecidableEq, Repr

/-- `CACHE_SIZE` from `crate::data`: five cache slots per node. -/
def CACHE_SIZE : ℕ := 5

def CacheArray.toList (c : CacheArray) : List (Option Cache) :=
  [c.slot0, c.slot1, c.slot2, c.slot3, c.slot4]

def CacheArray.get (c : CacheArray) : ℕ → Option Cache
  | 0 => c.slot0
  | 1 => c.slot1
  | 2 => c.slot2
  | 3 => c.slot3
  | 4 => c.slot4
  | _ + 5 => none

/-- Writing a cache slot.  An index `≥ 5` leaves the array unchanged in the
model (in the source this is an out-of-bounds panic; the C10 theorem shows the
driver never produces such an index). -/
def CacheArray.set (c : CacheArray) : ℕ → Option Cache → CacheArray
  | 0, e => { c with slot0 := e }
  | 1, e => { c with slot1 := e }
  | 2, e => { c with slot2 := e }
  | 3, e => { c with slot3 := e }
  | 4, e => { c with slot4 := e }
  | _ + 5, _ => c

def CacheArray.empty : CacheArray := ⟨none, none, none, none, none⟩

def Size.ZERO : Size ℚ := ⟨0, 0⟩

def Size.NONE : Size (Option ℚ) := ⟨none, none⟩

def Point.ZERO : Point ℚ := ⟨0, 0⟩

/-- Modelled from the spec: `Layout::with_order(order)` — "Each hidden node has
zero size and is placed at the origin" (source comment on
`perform_hidden_layout`); a layout with the given order, zero size and zero
location. -/
def Layout.with_order (order : ℕ) : Layout :=
  { order := order, size := Size.ZERO, location := Point.ZERO }

/-- Modelled from the spec: `crate::sys::round` — "Rounding snaps to integers";
round-half-away-from-zero, the rounding of Rust's `f32::round`. -/
def round (x : ℚ) : ℚ :=
  if 0 ≤ x then (⌊x + 1 / 2⌋ : ℤ) else (⌈x - 1 / 2⌉ : ℤ)

/-- Modelled from the spec: `AvailableSpace::is_roughly_equal` — two definite
constraints are roughly equal when their absolute difference is below `1e-4`;
`MinContent` and `MaxContent` match only themselves. -/
def AvailableSpace.is_roughly_equal : AvailableSpace → AvailableSpace → Bool
  | .Definite a, .Definite b => decide (|a - b| < 1 / 10000)
  | .MinContent, .MinContent => true
  | .MaxContent, .MaxContent => true
  | _, _ => false

/-- Modelled from the spec: `AvailableSpace::is_definite`. -/
def AvailableSpace.is_definite : AvailableSpace → Bool
  | .Definite _ => true
  | .MinContent => false
  | .MaxContent => false

/-- Modelled from the spec: `AvailableSpace::unwrap`, only ever applied under an
`is_definite` guard in the embedded code (the non-definite branches are
unreachable there and return 0 in the model). -/
def AvailableSpace.unwrap : AvailableSpace → ℚ
  | .Definite v => v
  | .MinContent => 0
  | .MaxContent => 0

/-- Modelled from the spec: `AvailableSpace::into_options` — a `Definite`
constraint yields its value, the content constraints yield `None`. -/
def AvailableSpace.into_options : AvailableSpace → Option ℚ
  | .Definite v => some v
  | .MinContent => none
  | .MaxContent => none

def Size.into_options (s : Size AvailableSpace) : Size (Option ℚ) :=
  ⟨s.width.into_options, s.height.into_options⟩

/-- The per-node state the solver reads and writes through the `LayoutTree`
accessor: the host-arena node identifier, the style, the layout record and the
five-slot cache. -/
structure NodeState where
  id : ℕ
  style : Style
  layout : Layout
  cache : CacheArray
deriving DecidableEq, Repr

mutual
/-- A node of the host tree: its state and its children in declared order. -/
inductive LTree where
  | mk : NodeState → LForest → LTree
/-- A list of sibling subtrees in declared order. -/
inductive LForest where
  | nil : LForest
  | cons : LTree → LForest → LForest
end

def LTree.state : LTree → NodeState
  | .mk st _ => st

def LTree.forest : LTree → LForest
  | .mk _ f => f

/-- `LayoutTree::is_childless`. -/
def LTree.is_childless : LTree → Bool
  | .mk _ .nil => true
  | .mk _ (.cons _ _) => false

/-- `LayoutTree::child_count`. -/
def LForest.length : LForest → ℕ
  | .nil => 0
  | .cons _ rest => rest.length + 1

/-- `LayoutTree::child(node, i)`, as an option. -/
def LForest.get : LForest → ℕ → Option LTree
  | .nil, _ => none
  | .cons c _, 0 => some c
  | .cons _ rest, n + 1 => rest.get n

/-- `*tree.layout_mut(node) = l` on the root of the subtree. -/
def LTree.setLayout (t : LTree) (l : Layout) : LTree :=
  .mk { t.state with layout := l } t.forest

/-- `*tree.cache_mut(node, i) = e` on the root of the subtree. -/
def LTree.setCache (t : LTree) (i : ℕ) (e : Option Cache) : LTree :=
  .mk { t.state with cache := t.state.cache.set i e } t.forest

/-- The layout record of child `i`, when it exists. -/
def LTree.childLayout (t : LTree) (i : ℕ) : Option Layout :=
  (t.forest.get i).map fun c => c.state.layout

/-- `compute_cache_slot` (src/compute/mod.rs:153-172): the cache slot for the
current computed result, a pure function of the known dimensions and the
available space. -/
def compute_cache_slot (kd : Size (Option ℚ)) (avail : Size AvailableSpace) : ℕ :=
  let has_known_width := kd.width.isSome
  let has_known_height := kd.height.isSome
  if has_known_width && has_known_height then 0
  else if has_known_width || has_known_height then
    let other_dim_available_space := if has_known_width then avail.height else avail.width
    1 + (if other_dim_available_space == AvailableSpace.MinContent then 1 else 0)
  else
    3 + (if avail.width == AvailableSpace.MinContent then 1 else 0)

/-- The abort test of `compute_from_cache` (src/compute/mod.rs:188): a cached
`ComputeSize` result is not valid when running in `PerformLayout` mode. -/
def entryBlocks (entry : Cache) (rm : RunMode) : Bool :=
  entry.run_mode == RunMode.ComputeSize && rm == RunMode.PeformLayout

/-- The axis-condition test of `compute_from_cache` (src/compute/mod.rs:192-205). -/
def entryMatches (entry : Cache) (kd : Size (Option ℚ)) (avail : Size AvailableSpace)
    (sm : SizingMode) : Bool :=
  (kd.width == entry.known_dimensions.width || kd.width == some entry.cached_size.width)
    && (kd.height == entry.known_dimensions.height || kd.height == some entry.cached_size.height)
    && (kd.width.isSome
        || entry.available_space.width.is_roughly_equal avail.width
        || (sm == SizingMode.ContentSize
            && avail.width.is_definite
            && decide (avail.width.unwrap ≥ entry.cached_size.width)))
    && (kd.height.isSome
        || entry.available_space.height.is_roughly_equal avail.height
        || (sm == SizingMode.ContentSize
            && avail.height.is_definite
            && decide (avail.height.unwrap ≥ entry.cached_size.height)))

/-- The slot scan of `compute_from_cache` (src/compute/mod.rs:184-210): the
entries in slot order; an occupied blocking entry returns `none` for the whole
lookup, an occupied matching entry returns its cached size, anything else is
skipped. -/
def computeFromCacheList (kd : Size (Option ℚ)) (avail : Size AvailableSpace)
    (rm : RunMode) (sm : SizingMode) : List (Option Cache) → Option (Size ℚ)
  | [] => none
  | none :: rest => computeFromCacheList kd avail rm sm rest
  | some entry :: rest =>
    if entryBlocks entry rm then none
    else if entryMatches entry kd avail sm then some entry.cached_size
    else computeFromCacheList kd avail rm sm rest

/-- `compute_from_cache` (src/compute/mod.rs:176-213), reading the queried
node's five cache slots. -/
def compute_from_cache (cache : CacheArray) (kd : Size (Option ℚ))
    (avail : Size AvailableSpace) (rm : RunMode) (sm : SizingMode) : Option (Size ℚ) :=
  computeFromCacheList kd avail rm sm cache.toList

mutual
/-- `perform_hidden_layout_inner` (src/compute/mod.rs:219-224): overwrite the
node's layout with `Layout::with_order(order)` and recurse over the children
with their indices as orders. -/
def perform_hidden_layout_inner : LTree → ℕ → LTree
  | .mk st f, ord => .mk { st with layout := Layout.with_order ord } (hiddenForest f 0)
/-- The child loop of `perform_hidden_layout`: apply the inner pass to each
child with its index. -/
def hiddenForest : LForest → ℕ → LForest
  | .nil, _ => .nil
  | .cons c rest, i => .cons (perform_hidden_layout_inner c i) (hiddenForest rest (i + 1))
end

/-- `perform_hidden_layout` (src/compute/mod.rs:217-231): zero the layouts of
all strict descendants (the node's own record is not written) and return
`Size::ZERO`. -/
def perform_hidden_layout (t : LTree) : Size ℚ × LTree :=
  (Size.ZERO, .mk t.state (hiddenForest t.forest 0))

mutual
/-- `round_layout` (src/compute/mod.rs:234-250): accumulate the absolute
coordinates from the unrounded relative location, round the stored location
and size in place, and recurse over the children with the accumulated
absolutes. -/
def round_layout : LTree → ℚ → ℚ → LTree
  | .mk st f, abs_x, abs_y =>
    let abs_x2 := abs_x + st.layout.location.x
    let abs_y2 := abs_y + st.layout.location.y
    let newLayout : Layout :=
      { st.layout with
        location := ⟨round st.layout.location.x, round st.layout.location.y⟩
        size := ⟨round st.layout.size.width, round st.layout.size.height⟩ }
    .mk { st with layout := newLayout } (roundForest f abs_x2 abs_y2)
/-- The child loop of `round_layout`. -/
def roundForest : LForest → ℚ → ℚ → LForest
  | .nil, _, _ => .nil
  | .cons c rest, ax, ay => .cons (round_layout c ax ay) (roundForest rest ax ay)
end

/-- The sizing algorithms the dispatch selects between.  `leaf::compute`,
`flexbox::compute` and `grid::compute` are outside the excerpted source, so the
dispatch is embedded parametrically: each algorithm receives the node's
subtree and the sizing query and returns the computed size, the updated
subtree, and the list of node ids whose cache lookup hit during its own
recursive solver calls (mirroring the debug logger's CACHE events). -/
structure Algorithms where
  leafCompute : LTree → Size (Option ℚ) → Size (Option ℚ) → Size AvailableSpace →
    RunMode → SizingMode → Size ℚ × LTree × List ℕ
  flexboxCompute : LTree → Size (Option ℚ) → Size (Option ℚ) → Size AvailableSpace →
    RunMode → Size ℚ × LTree × List ℕ
  gridCompute : LTree → Size (Option ℚ) → Size (Option ℚ) → Size AvailableSpace →
    Size ℚ × LTree × List ℕ

/-- `compute_node_layout` (src/compute/mod.rs:49-128): force the cache run mode
to `PerformLayout` for childless nodes, try the cache (returning the cached
size with no state change on a hit), otherwise dispatch to the leaf / flexbox /
grid / hidden algorithm and store the computed result in the selected cache
slot.  The third component is the hit log: the ids of the nodes whose cache
lookup hit, in order of occurrence. -/
def compute_node_layout (algs : Algorithms) (t : LTree) (kd : Size (Option ℚ))
    (parent_size : Size (Option ℚ)) (avail : Size AvailableSpace)
    (rm : RunMode) (sm : SizingMode) : Size ℚ × LTree × List ℕ :=
  let cache_run_mode := if t.is_childless then RunMode.PeformLayout else rm
  match compute_from_cache t.state.cache kd avail cache_run_mode sm with
  | some cached_size => (cached_size, t, [t.state.id])
  | none =>
    let computed :=
      if t.is_childless then algs.leafCompute t kd parent_size avail rm sm
      else
        match t.state.style.display with
        | .Flex => algs.flexboxCompute t kd parent_size avail rm
        | .Grid => algs.gridCompute t kd parent_size avail
        | .None =>
          let hidden := perform_hidden_layout t
          (hidden.1, hidden.2, [])
    let cache_slot := compute_cache_slot kd avail
    (computed.1,
     computed.2.1.setCache cache_slot
       (some { known_dimensions := kd, available_space := avail,
               run_mode := cache_run_mode, cached_size := computed.1 }),
     computed.2.2)

/-- `compute_layout` (src/compute/mod.rs:23-46): recursively compute the root
size with no known dimensions under the given available space, write
`Layout ( order: 0, size, location: (0,0) )` into the root, round the whole
tree from absolute origin `(0, 0)`, and return `Ok(())`.  The returned triple
is (result, final tree, hit log). -/
def compute_layout (algs : Algorithms) (t : LTree)
    (available_space : Size AvailableSpace) : Except TaffyError Unit × LTree × List ℕ :=
  let computed := compute_node_layout algs t Size.NONE available_space.into_options
    available_space RunMode.PeformLayout SizingMode.InherentSize
  let t2 := computed.2.1.setLayout
    { order := 0, size := computed.1, location := Point.ZERO }
  (Except.ok (), round_layout t2 0 0, computed.2.2)

/-! ## Spec-side definitions

These definitions follow the specification's words (not the source) and exist
to be compared with the embedded source functions. -/

/-- The hit predicate exactly as the C1 claim states it: an entry matches iff
it is not a `ComputeSize` entry queried under `PerformLayout`, and the per-axis
conditions hold.  (In the source, the run-mode condition is not part of a
per-entry predicate: a violating entry aborts the whole lookup.) -/
def claimHitPred (entry : Cache) (kd : Size (Option ℚ)) (avail : Size AvailableSpace)
    (rm : RunMode) (sm : SizingMode) : Bool :=
  !entryBlocks entry rm && entryMatches entry kd avail sm

/-- Direct per-record rounding: round the stored location and size of one
layout record, with no reference to absolute coordinates. -/
def roundLayoutRecord (l : Layout) : Layout :=
  { l with
    location := ⟨round l.location.x, round l.location.y⟩
    size := ⟨round l.size.width, round l.size.height⟩ }

mutual
/-- The tree with every layout record rounded directly (per-record, with no
dependence on absolute coordinates). -/
def roundedTree : LTree → LTree
  | .mk st f => .mk { st with layout := roundLayoutRecord st.layout } (roundedForest f)
def roundedForest : LForest → LForest
  | .nil => .nil
  | .cons c rest => .cons (roundedTree c) (roundedForest rest)
end

mutual
/-- Every layout record in the tree has zero size and zero location. -/
def treeAllZero : LTree → Bool
  | .mk st f =>
    (st.layout.size == Size.ZERO && st.layout.location == Point.ZERO) && forestAllZero f
def forestAllZero : LForest → Bool
  | .nil => true
  | .cons c rest => treeAllZero c && forestAllZero rest
end

mutual
/-- Bit-identical layout records: same order, size and location at every node
of two structurally equal trees. -/
def layoutsIdentical : LTree → LTree → Bool
  | .mk st f, .mk st' f' => st.layout == st'.layout && forestLayoutsIdentical f f'
def forestLayoutsIdentical : LForest → LForest → Bool
  | .nil, .nil => true
  | .cons c rest, .cons c' rest' => layoutsIdentical c c' && forestLayoutsIdentical rest rest'
  | _, _ => false
end

mutual
/-- The ids of the non-leaf (childful) nodes of a tree, in preorder. -/
def nonLeafIdsT : LTree → List ℕ
  | .mk st f =>
    (match f with
     | .nil => []
     | .cons _ _ => [st.id]) ++ nonLeafIdsF f
def nonLeafIdsF : LForest → List ℕ
  | .nil => []
  | .cons c rest => nonLeafIdsT c ++ nonLeafIdsF rest
end

/-- Modelled from the spec: dimension resolution against the containing block —
`Points` resolves to its value, `Percent` to the fraction of the parent size
when that is known, `Auto` to nothing. -/
def Dimension.maybe_resolve : Dimension → Option ℚ → Option ℚ
  | .Points p, _ => some p
  | .Percent p, some parent => some (p * parent)
  | .Percent _, none => none
  | .Auto, _ => none

/-- Modelled from the spec: `leaf::compute` (spec section 4.5) for a node with
no measure function and no min/max constraints in its modelled style: on each
axis the final size is the known dimension, else the style size resolved
against the parent size, else 0. -/
def leaf_compute_spec (t : LTree) (kd : Size (Option ℚ)) (parent_size : Size (Option ℚ))
    (_avail : Size AvailableSpace) (_rm : RunMode) (_sm : SizingMode) :
    Size ℚ × LTree × List ℕ :=
  (⟨(kd.width.or (t.state.style.size.width.maybe_resolve parent_size.width)).getD 0,
    (kd.height.or (t.state.style.size.height.maybe_resolve parent_size.height)).getD 0⟩,
   t, [])

/-- A stand-in for algorithms a scenario never invokes. -/
def unusedAlgoRM (t : LTree) (_kd : Size (Option ℚ)) (_ps : Size (Option ℚ))
    (_avail : Size AvailableSpace) (_rm : RunMode) : Size ℚ × LTree × List ℕ :=
  (Size.ZERO, t, [])

/-- A stand-in for the grid algorithm, which no scenario invokes. -/
def unusedGridAlgo (t : LTree) (_kd : Size (Option ℚ)) (_ps : Size (Option ℚ))
    (_avail : Size AvailableSpace) : Size ℚ × LTree × List ℕ :=
  (Size.ZERO, t, [])

/-- Algorithms with the spec-modelled leaf sizing and no container algorithm. -/
def leafOnlyAlgs : Algorithms :=
  { leafCompute := leaf_compute_spec
    flexboxCompute := unusedAlgoRM
    gridCompute := unusedGridAlgo }

/-- Modelled from the spec: the child-layout emission of `flexbox::compute`
(spec section 4.6 step 13), simplified to a wrap-free column container with no
flexible items: each child is solved recursively with the given inner
algorithms, its layout is written with its source order and a location that
stacks the children top-to-bottom, and the container reports the stacked
content size (width = maximum child width, height = sum of child heights). -/
def flexEmitForest (inner : Algorithms) (avail : Size AvailableSpace) :
    LForest → ℕ → ℚ → ℚ × ℚ × LForest × List ℕ
  | .nil, _, _ => (0, 0, .nil, [])
  | .cons c rest, ord, y =>
    let solved := compute_node_layout inner c Size.NONE avail.into_options avail
      RunMode.PeformLayout SizingMode.InherentSize
    let childDone := solved.2.1.setLayout
      { order := ord, size := solved.1, location := ⟨0, y⟩ }
    let restDone := flexEmitForest inner avail rest (ord + 1) (y + solved.1.height)
    (max solved.1.width restDone.1, solved.1.height + restDone.2.1,
     .cons childDone restDone.2.2.1, solved.2.2 ++ restDone.2.2.2)

/-- Modelled from the spec: a `flexbox::compute` instance built from
`flexEmitForest` — lays out the children with the `inner` algorithms and
returns the container's content size. -/
def flexColumn (inner : Algorithms) (t : LTree) (_kd : Size (Option ℚ))
    (_ps : Size (Option ℚ)) (avail : Size AvailableSpace) (_rm : RunMode) :
    Size ℚ × LTree × List ℕ :=
  let emitted := flexEmitForest inner avail t.forest 0 0
  (⟨emitted.1, emitted.2.1⟩, .mk t.state emitted.2.2.1, emitted.2.2.2)

/-- One-level demo algorithm stack: flex containers whose children are leaves. -/
def demoAlgs1 : Algorithms :=
  { leafCompute := leaf_compute_spec
    flexboxCompute := flexColumn leafOnlyAlgs
    gridCompute := unusedGridAlgo }

/-- Two-level demo algorithm stack: flex containers whose children are flex
containers of leaves. -/
def demoAlgs2 : Algorithms :=
  { leafCompute := leaf_compute_spec
    flexboxCompute := flexColumn demoAlgs1
    gridCompute := unusedGridAlgo }

/-- The entry at index `j` is occupied but neither aborts the scan nor matches:
the scan passes over it. -/
def entrySkipped (kd : Size (Option ℚ)) (avail : Size AvailableSpace) (rm : RunMode)
    (sm : SizingMode) (o : Option Cache) : Bool :=
  o.all fun e => !entryBlocks e rm && !entryMatches e kd avail sm

/-- The main-axis start coordinate of a layout record; `col = true` reads the
column (y) axis, `col = false` the row (x) axis. -/
def Layout.mainStart (l : Layout) (col : Bool) : ℚ :=
  if col then l.location.y else l.location.x

/-- The main-axis extent of a layout record, axis chosen as in `mainStart`. -/
def Layout.mainExtent (l : Layout) (col : Bool) : ℚ :=
  if col then l.size.height else l.size.width

/-! ## Concrete scenario data -/

/-- A childless node with the given id and a fixed points size, fresh layout
and empty cache. -/
def mkLeaf (idn : ℕ) (w h : ℚ) : LTree :=
  .mk { id := idn, style := { display := .Flex, size := ⟨.Points w, .Points h⟩ },
        layout := Layout.with_order 0, cache := CacheArray.empty } .nil

/-- A cache entry for a `PerformLayout` sizing of an unconstrained query under
a definite 100 × 100 space. -/
def c7entry : Cache :=
  { known_dimensions := Size.NONE,
    available_space := ⟨.Definite 100, .Definite 100⟩,
    run_mode := .PeformLayout,
    cached_size := ⟨7, 8⟩ }

/-- A leaf whose cache already holds `c7entry` in slot 3. -/
def c7demo : LTree :=
  .mk { id := 5, style := { display := .Flex, size := ⟨.Auto, .Auto⟩ },
        layout := Layout.with_order 0,
        cache := { CacheArray.empty with slot3 := some c7entry } } .nil

/-- A fresh 10 × 10 points leaf used to exercise the cache write. -/
def c4demoLeaf : LTree := mkLeaf 9 10 10

/-- A blocking entry: a `ComputeSize` result stored in slot 0. -/
def c1blockedEntry : Cache :=
  { known_dimensions := Size.NONE,
    available_space := ⟨.Definite 100, .Definite 100⟩,
    run_mode := .ComputeSize,
    cached_size := ⟨40, 40⟩ }

/-- A fully matching `PerformLayout` entry stored in slot 1. -/
def c1matchEntry : Cache :=
  { known_dimensions := Size.NONE,
    available_space := ⟨.Definite 100, .Definite 100⟩,
    run_mode := .PeformLayout,
    cached_size := ⟨50, 50⟩ }

/-- A cache whose slot 0 blocks a `PerformLayout` query and whose slot 1 would
match it. -/
def c1demoCache : CacheArray :=
  ⟨some c1blockedEntry, some c1matchEntry, none, none, none⟩

/-- An unrounded two-node tree: the child sits at fractional location
`(0.3, 0)` with fractional width `1.4`. -/
def c2tree : LTree :=
  .mk { id := 0, style := { display := .Flex, size := ⟨.Auto, .Auto⟩ },
        layout := { order := 0, size := ⟨1, 1⟩, location := ⟨0, 0⟩ },
        cache := CacheArray.empty }
    (.cons
      (.mk { id := 1, style := { display := .Flex, size := ⟨.Auto, .Auto⟩ },
             layout := { order := 0, size := ⟨14 / 10, 1⟩, location := ⟨3 / 10, 0⟩ },
             cache := CacheArray.empty } .nil)
      .nil)

/-- A column flex container of three leaves with fractional heights
0.3, 1.4 and 2: consecutive children end up exactly flush before rounding. -/
def c3tree : LTree :=
  .mk { id := 0, style := { display := .Flex, size := ⟨.Auto, .Auto⟩ },
        layout := Layout.with_order 0, cache := CacheArray.empty }
    (.cons (mkLeaf 1 5 (3 / 10))
      (.cons (mkLeaf 2 5 (14 / 10))
        (.cons (mkLeaf 3 5 2) .nil)))

/-- The available space used by the end-to-end scenarios. -/
def demoAvail : Size AvailableSpace := ⟨.Definite 100, .Definite 100⟩

/-- The tree state right before the rounding pass of
`compute_layout demoAlgs1 c3tree demoAvail` (the unrounded layouts). -/
def c3unrounded : LTree :=
  ((compute_node_layout demoAlgs1 c3tree Size.NONE demoAvail.into_options demoAvail
      RunMode.PeformLayout SizingMode.InherentSize).2.1).setLayout
    { order := 0,
      size := (compute_node_layout demoAlgs1 c3tree Size.NONE demoAvail.into_options demoAvail
        RunMode.PeformLayout SizingMode.InherentSize).1,
      location := Point.ZERO }

/-- The final tree of `compute_layout demoAlgs1 c3tree demoAvail`. -/
def c3final : LTree := (compute_layout demoAlgs1 c3tree demoAvail).2.1

/-- Two siblings exactly flush on the x axis before rounding: the first spans
`[0.3, 1.7)`, the second starts at `1.7`. -/
def c3flushTree : LTree :=
  .mk { id := 0, style := { display := .Flex, size := ⟨.Auto, .Auto⟩ },
        layout := Layout.with_order 0, cache := CacheArray.empty }
    (.cons
      (.mk { id := 1, style := { display := .Flex, size := ⟨.Auto, .Auto⟩ },
             layout := { order := 0, size := ⟨14 / 10, 1⟩, location := ⟨3 / 10, 0⟩ },
             cache := CacheArray.empty } .nil)
      (.cons
        (.mk { id := 2, style := { display := .Flex, size := ⟨.Auto, .Auto⟩ },
               layout := { order := 1, size := ⟨1, 1⟩, location := ⟨17 / 10, 0⟩ },
               cache := CacheArray.empty } .nil)
        .nil))

/-- A `display: None` node with two leaf children (each with a nonzero stale
layout), used for the hidden-subtree scenario. -/
def c5hidden : LTree :=
  .mk { id := 0, style := { display := .None, size := ⟨.Auto, .Auto⟩ },
        layout := Layout.with_order 0, cache := CacheArray.empty }
    (.cons
      (.mk { id := 1, style := { display := .Flex, size := ⟨.Points 50, .Points 50⟩ },
             layout := { order := 3, size := ⟨50, 50⟩, location := ⟨5, 5⟩ },
             cache := CacheArray.empty }
        (.cons
          (.mk { id := 3, style := { display := .Flex, size := ⟨.Points 20, .Points 20⟩ },
                 layout := { order := 2, size := ⟨20, 20⟩, location := ⟨1, 1⟩ },
                 cache := CacheArray.empty } .nil)
          .nil))
      (.cons
        (.mk { id := 2, style := { display := .Flex, size := ⟨.Points 30, .Points 30⟩ },
               layout := { order := 4, size := ⟨30, 30⟩, location := ⟨6, 6⟩ },
               cache := CacheArray.empty } .nil)
        .nil))

/-- A childless node styled `display: None` with an explicit 50 × 50 size. -/
def c5leafNone : LTree :=
  .mk { id := 7, style := { display := .None, size := ⟨.Points 50, .Points 50⟩ },
        layout := Layout.with_order 0, cache := CacheArray.empty } .nil

/-- A two-level tree for the idempotence scenario: flex root (id 0) containing
a flex child (id 1) containing a 10 × 10 leaf (id 2).  The child node is a
non-leaf descendant of the root. -/
def c8tree : LTree :=
  .mk { id := 0, style := { display := .Flex, size := ⟨.Auto, .Auto⟩ },
        layout := Layout.with_order 0, cache := CacheArray.empty }
    (.cons
      (.mk { id := 1, style := { display := .Flex, size := ⟨.Auto, .Auto⟩ },
             layout := Layout.with_order 0, cache := CacheArray.empty }
        (.cons (mkLeaf 2 10 10) .nil))
      .nil)

/-- The tree after the first `compute_layout` run on `c8tree`. -/
def c8first : LTree := (compute_layout demoAlgs2 c8tree demoAvail).2.1

/-- The hit log of the second `compute_layout` run on `c8tree`. -/
def c8secondLog : List ℕ := (compute_layout demoAlgs2 c8first demoAvail).2.2

/-- The tree after the second `compute_layout` run on `c8tree`. -/
def c8secondTree : LTree := (compute_layout demoAlgs2 c8first demoAvail).2.1

/-! ## Helper lemmas -/

theorem round_intCast (n : ℤ) : round (n : ℚ) = n := by
  unfold round
  by_cases h : (0 : ℚ) ≤ (n : ℚ)
  · rw [if_pos h]
    have : ⌊(n : ℚ) + 1 / 2⌋ = n + ⌊(1 : ℚ) / 2⌋ := by
      rw [add_comm, Int.floor_add_int]
      omega
    rw [this]
    norm_num
  · rw [if_neg h]
    have : ⌈(n : ℚ) - 1 / 2⌉ = n + ⌈-(1 : ℚ) / 2⌉ := by
      rw [sub_eq_add_neg, add_comm, Int.ceil_add_int, neg_div]
      omega
    rw [this]
    norm_num

theorem round_isInt (x : ℚ) : ∃ n : ℤ, round x = n := by
  unfold round
  by_cases h : (0 : ℚ) ≤ x
  · exact ⟨⌊x + 1 / 2⌋, by rw [if_pos h]⟩
  · exact ⟨⌈x - 1 / 2⌉, by rw [if_neg h]⟩

theorem round_round (x : ℚ) : round (round x) = round x := by
  obtain ⟨n, hn⟩ := round_isInt x
  rw [hn, round_intCast]

theorem round_zero : round 0 = 0 := by
  have := round_intCast 0
  simpa using this

theorem abs_round_sub_le (x : ℚ) : |round x - x| ≤ 1 / 2 := by
  unfold round
  by_cases h : (0 : ℚ) ≤ x
  · rw [if_pos h]
    have h1 : (⌊x + 1 / 2⌋ : ℚ) ≤ x + 1 / 2 := Int.floor_le _
    have h2 : x + 1 / 2 - 1 < (⌊x + 1 / 2⌋ : ℚ) := Int.sub_one_lt_floor _
    rw [abs_le]
    constructor <;> linarith
  · rw [if_neg h]
    have h1 : x - 1 / 2 ≤ (⌈x - 1 / 2⌉ : ℚ) := Int.le_ceil _
    have h2 : (⌈x - 1 / 2⌉ : ℚ) < x - 1 / 2 + 1 := Int.ceil_lt_add_one _
    rw [abs_le]
    constructor <;> linarith

theorem is_roughly_equal_refl (a : AvailableSpace) : a.is_roughly_equal a = true := by
  cases a with
  | Definite v => simp [AvailableSpace.is_roughly_equal]
  | MinContent => rfl
  | MaxContent => rfl

mutual
theorem round_layout_eq_roundedTree : ∀ (t : LTree) (ax ay : ℚ),
    round_layout t ax ay = roundedTree t
  | .mk st f, ax, ay => by
    simp only [round_layout, roundedTree, roundLayoutRecord,
      roundForest_eq_roundedForest f]
theorem roundForest_eq_roundedForest : ∀ (f : LForest) (ax ay : ℚ),
    roundForest f ax ay = roundedForest f
  | .nil, _, _ => rfl
  | .cons c rest, ax, ay => by
    simp only [roundForest, roundedForest, round_layout_eq_roundedTree c,
      roundForest_eq_roundedForest rest]
end

theorem roundLayoutRecord_idem (l : Layout) :
    roundLayoutRecord (roundLayoutRecord l) = roundLayoutRecord l := by
  simp [roundLayoutRecord, round_round]

mutual
theorem roundedTree_idem : ∀ t : LTree, roundedTree (roundedTree t) = roundedTree t
  | .mk st f => by
    simp only [roundedTree, roundedForest_idem f, roundLayoutRecord_idem]
theorem roundedForest_idem : ∀ f : LForest, roundedForest (roundedForest f) = roundedForest f
  | .nil => rfl
  | .cons c rest => by
    simp only [roundedForest, roundedTree_idem c, roundedForest_idem rest]
end

mutual
theorem treeAllZero_hidden_inner : ∀ (t : LTree) (ord : ℕ),
    treeAllZero (perform_hidden_layout_inner t ord) = true
  | .mk st f, ord => by
    simp only [perform_hidden_layout_inner, treeAllZero, forestAllZero_hidden f,
      Layout.with_order]
    rfl
theorem forestAllZero_hidden : ∀ (f : LForest) (n : ℕ),
    forestAllZero (hiddenForest f n) = true
  | .nil, _ => rfl
  | .cons c rest, n => by
    simp only [hiddenForest, forestAllZero, treeAllZero_hidden_inner c,
      forestAllZero_hidden rest, Bool.and_self]
end

mutual
theorem treeAllZero_rounded : ∀ t : LTree, treeAllZero t = true →
    treeAllZero (roundedTree t) = true
  | .mk st f, h => by
    simp only [treeAllZero, Bool.and_eq_true, beq_iff_eq] at h
    obtain ⟨⟨hs, hl⟩, hf⟩ := h
    simp only [roundedTree, treeAllZero, Bool.and_eq_true, beq_iff_eq]
    refine ⟨⟨?_, ?_⟩, forestAllZero_rounded f hf⟩
    · simp [roundLayoutRecord, hs, Size.ZERO, round_zero]
    · simp [roundLayoutRecord, hl, Point.ZERO, round_zero]
theorem forestAllZero_rounded : ∀ f : LForest, forestAllZero f = true →
    forestAllZero (roundedForest f) = true
  | .nil, _ => rfl
  | .cons c rest, h => by
    simp only [forestAllZero, Bool.and_eq_true] at h
    simp only [roundedForest, forestAllZero, Bool.and_eq_true]
    exact ⟨treeAllZero_rounded c h.1, forestAllZero_rounded rest h.2⟩
end

theorem roundedForest_get : ∀ (f : LForest) (i : ℕ),
    (roundedForest f).get i = (f.get i).map roundedTree
  | .nil, _ => rfl
  | .cons c rest, 0 => rfl
  | .cons c rest, n + 1 => by
    simpa [roundedForest, LForest.get] using roundedForest_get rest n

theorem computeFromCacheList_some_iff (kd : Size (Option ℚ)) (avail : Size AvailableSpace)
    (rm : RunMode) (sm : SizingMode) :
    ∀ (l : List (Option Cache)) (s : Size ℚ),
      computeFromCacheList kd avail rm sm l = some s ↔
        ∃ i e, l.get? i = some (some e) ∧ entryBlocks e rm = false ∧
          entryMatches e kd avail sm = true ∧ s = e.cached_size ∧
          (l.take i).all (entrySkipped kd avail rm sm) = true
  | [], s => by simp [computeFromCacheList]
  | none :: rest, s => by
    rw [show computeFromCacheList kd avail rm sm (none :: rest) =
      computeFromCacheList kd avail rm sm rest from rfl]
    rw [computeFromCacheList_some_iff kd avail rm sm rest s]
    constructor
    · rintro ⟨i, e, hget, hb, hm, hs, hall⟩
      refine ⟨i + 1, e, by simpa using hget, hb, hm, hs, ?_⟩
      simpa [entrySkipped, Option.all] using hall
    · rintro ⟨i, e, hget, hb, hm, hs, hall⟩
      cases i with
      | zero => simp at hget
      | succ n =>
        refine ⟨n, e, by simpa using hget, hb, hm, hs, ?_⟩
        simpa [entrySkipped, Option.all] using hall
  | some e0 :: rest, s => by
    by_cases hb0 : entryBlocks e0 rm = true
    · rw [show computeFromCacheList kd avail rm sm (some e0 :: rest) = none from by
        simp [computeFromCacheList, hb0]]
      constructor
      · intro h; exact absurd h (by simp)
      · rintro ⟨i, e, hget, hb, hm, hs, hall⟩
        cases i with
        | zero =>
          simp only [List.get?] at hget
          obtain rfl : e0 = e := by injection hget with h; injection h
          rw [hb0] at hb; exact absurd hb (by simp)
        | succ n =>
          rw [List.take_succ_cons, List.all_cons] at hall
          simp [entrySkipped, Option.all, hb0] at hall
    · by_cases hm0 : entryMatches e0 kd avail sm = true
      · rw [show computeFromCacheList kd avail rm sm (some e0 :: rest) =
          some e0.cached_size from by
            simp [computeFromCacheList, hb0, hm0]]
        constructor
        · intro h
          refine ⟨0, e0, rfl, by simpa using hb0, hm0, ?_, by simp⟩
          injection h with h; exact h.symm
        · rintro ⟨i, e, hget, hb, hm, hs, hall⟩
          cases i with
          | zero =>
            simp only [List.get?] at hget
            obtain rfl : e0 = e := by injection hget with h; injection h
            rw [hs]
          | succ n =>
            rw [List.take_succ_cons, List.all_cons] at hall
            simp [entrySkipped, Option.all, hm0] at hall
      · rw [show computeFromCacheList kd avail rm sm (some e0 :: rest) =
          computeFromCacheList kd avail rm sm rest from by
            simp [computeFromCacheList, hb0, hm0]]
        rw [computeFromCacheList_some_iff kd avail rm sm rest s]
        constructor
        · rintro ⟨i, e, hget, hb, hm, hs, hall⟩
          refine ⟨i + 1, e, by simpa using hget, hb, hm, hs, ?_⟩
          rw [List.take_succ_cons, List.all_cons]
          simp only [entrySkipped, Option.all, hb0, hm0, Bool.and_eq_true]
          exact ⟨by simp [hb0, hm0], hall⟩
        · rintro ⟨i, e, hget, hb, hm, hs, hall⟩
          cases i with
          | zero =>
            simp only [List.get?] at hget
            obtain rfl : e0 = e := by injection hget with h; injection h
            rw [hm] at hm0; exact absurd rfl hm0
          | succ n =>
            rw [List.take_succ_cons, List.all_cons] at hall
            exact ⟨n, e, by simpa using hget, hb, hm, hs, (Bool.and_eq_true _ _ |>.mp hall).2⟩

theorem compute_cache_slot_lt (kd : Size (Option ℚ)) (avail : Size AvailableSpace) :
    compute_cache_slot kd avail < 5 := by
  unfold compute_cache_slot
  by_cases hw : kd.width.isSome <;> by_cases hh : kd.height.isSome <;>
    simp [hw, hh] <;> split <;> omega

theorem CacheArray.get_set_self (c : CacheArray) (e : Option Cache) (i : ℕ) (h : i < 5) :
    (c.set i e).get i = e := by
  interval_cases i <;> rfl

/-- C10: for every input pair, `compute_cache_slot` returns a value strictly
less than `CACHE_SIZE = 5`, so the cache write in `compute_node_layout` always
indexes a valid slot of the fixed-length per-node cache array (here: the write
at the selected slot actually stores the entry rather than hitting the model's
out-of-range fallback). -/
theorem c10_cache_slot_safe (kd : Size (Option ℚ)) (avail : Size AvailableSpace) :
    compute_cache_slot kd avail < CACHE_SIZE ∧
      ∀ (c : CacheArray) (e : Option Cache),
        (c.set (compute_cache_slot kd avail) e).get (compute_cache_slot kd avail) = e := by
  refine ⟨compute_cache_slot_lt kd avail, fun c e => ?_⟩
  exact CacheArray.get_set_self c e _ (compute_cache_slot_lt kd avail)

/-- C9: for every tree, root and available space (and every instantiation of
the child algorithms), `compute_layout` returns `Ok(())`: no code path produces
an error value, so `InvalidInputNode` is never surfaced by the solver itself. -/
theorem c9_compute_layout_ok (algs : Algorithms) (t : LTree) (avail : Size AvailableSpace) :
    (compute_layout algs t avail).1 = Except.ok () := rfl

/-- C6: `compute_layout` performs exactly the claimed protocol: one recursive
solver call on the root with `known_dimensions = Size::NONE`,
`parent_size = available_space.into_options()`, the given available space,
`PerformLayout` and `InherentSize`; then writes
`Layout ( order: 0, size, location: (0,0) )` into the root; then invokes the
rounding pass from the root with running absolute origin `(0, 0)`. -/
theorem c6_entry_protocol (algs : Algorithms) (t : LTree) (avail : Size AvailableSpace) :
    compute_layout algs t avail =
      (Except.ok (),
       round_layout
         ((compute_node_layout algs t Size.NONE avail.into_options avail
             RunMode.PeformLayout SizingMode.InherentSize).2.1.setLayout
           { order := 0,
             size := (compute_node_layout algs t Size.NONE avail.into_options avail
               RunMode.PeformLayout SizingMode.InherentSize).1,
             location := Point.ZERO })
         0 0,
       (compute_node_layout algs t Size.NONE avail.into_options avail
         RunMode.PeformLayout SizingMode.InherentSize).2.2) := rfl

/-- C7: when `compute_node_layout` finds a cache hit it returns the cached size
immediately with no side effects — the tree (every node's layout record and
every node's cache entries) is returned unchanged, and the only event is the
hit itself. -/
theorem c7_cache_hit_no_side_effects (algs : Algorithms) (t : LTree)
    (kd parent_size : Size (Option ℚ)) (avail : Size AvailableSpace)
    (rm : RunMode) (sm : SizingMode) (s : Size ℚ)
    (h : compute_from_cache t.state.cache kd avail
      (if t.is_childless then RunMode.PeformLayout else rm) sm = some s) :
    compute_node_layout algs t kd parent_size avail rm sm = (s, t, [t.state.id]) := by
  simp only [compute_node_layout, h]

/-- C7 witness: a concrete hit on `c7demo` returns the cached `(7, 8)` with the
tree unchanged. -/
theorem c7_cache_hit_no_side_effects_witness :
    compute_node_layout leafOnlyAlgs c7demo Size.NONE Size.NONE
      ⟨.Definite 100, .Definite 100⟩ RunMode.PeformLayout SizingMode.InherentSize =
      (⟨7, 8⟩, c7demo, [5]) :=
  c7_cache_hit_no_side_effects leafOnlyAlgs c7demo Size.NONE Size.NONE
    ⟨.Definite 100, .Definite 100⟩ RunMode.PeformLayout SizingMode.InherentSize
    ⟨7, 8⟩ (by decide)

theorem beq_min_false {a : AvailableSpace}
    (h : a = .MaxContent ∨ a.is_definite = true) :
    (a == AvailableSpace.MinContent) = false := by
  cases a <;> simp_all [AvailableSpace.is_definite]

theorem LTree.state_setCache (t : LTree) (i : ℕ) (e : Option Cache) :
    (t.setCache i e).state = { t.state with cache := t.state.cache.set i e } := rfl

/-- C4: `compute_cache_slot` is the claimed pure slot function — 0 when both
dimensions are known; 1 when exactly one is known and the other axis's
available space is `MaxContent` or `Definite`; 2 when exactly one is known and
the other axis's available space is `MinContent`; 3 when neither is known and
the width available space is `MaxContent` or `Definite`; 4 when neither is
known and the width available space is `MinContent` — and on a cache miss
`compute_node_layout` stores its computed result in exactly the slot this
function selects. -/
theorem c4_cache_slot_selection :
    (∀ (kd : Size (Option ℚ)) (avail : Size AvailableSpace),
      (kd.width.isSome = true → kd.height.isSome = true →
        compute_cache_slot kd avail = 0) ∧
      (kd.width.isSome = true → kd.height = none →
        (avail.height = .MaxContent ∨ avail.height.is_definite = true) →
        compute_cache_slot kd avail = 1) ∧
      (kd.width = none → kd.height.isSome = true →
        (avail.width = .MaxContent ∨ avail.width.is_definite = true) →
        compute_cache_slot kd avail = 1) ∧
      (kd.width.isSome = true → kd.height = none → avail.height = .MinContent →
        compute_cache_slot kd avail = 2) ∧
      (kd.width = none → kd.height.isSome = true → avail.width = .MinContent →
        compute_cache_slot kd avail = 2) ∧
      (kd.width = none → kd.height = none →
        (avail.width = .MaxContent ∨ avail.width.is_definite = true) →
        compute_cache_slot kd avail = 3) ∧
      (kd.width = none → kd.height = none → avail.width = .MinContent →
        compute_cache_slot kd avail = 4)) ∧
    ∀ (algs : Algorithms) (t : LTree) (kd parent_size : Size (Option ℚ))
      (avail : Size AvailableSpace) (rm : RunMode) (sm : SizingMode),
      compute_from_cache t.state.cache kd avail
        (if t.is_childless then RunMode.PeformLayout else rm) sm = none →
      ((compute_node_layout algs t kd parent_size avail rm sm).2.1).state.cache.get
          (compute_cache_slot kd avail) =
        some { known_dimensions := kd, available_space := avail,
               run_mode := if t.is_childless then RunMode.PeformLayout else rm,
               cached_size := (compute_node_layout algs t kd parent_size avail rm sm).1 } := by
  constructor
  · intro kd avail
    refine ⟨?_, ?_, ?_, ?_, ?_, ?_, ?_⟩
    · intro hw hh
      simp [compute_cache_slot, hw, hh]
    · intro hw hh hor
      simp [compute_cache_slot, hw, hh, beq_min_false hor]
    · intro hw hh hor
      simp [compute_cache_slot, hw, hh, beq_min_false hor]
    · intro hw hh hmin
      simp [compute_cache_slot, hw, hh, hmin]
    · intro hw hh hmin
      simp [compute_cache_slot, hw, hh, hmin]
    · intro hw hh hor
      simp [compute_cache_slot, hw, hh, beq_min_false hor]
    · intro hw hh hmin
      simp [compute_cache_slot, hw, hh, hmin]
  · intro algs t kd parent_size avail rm sm hmiss
    simp only [compute_node_layout, hmiss, LTree.state_setCache]
    exact CacheArray.get_set_self _ _ _ (compute_cache_slot_lt kd avail)

/-- C4 witness: all five slot classes and the cache write, at concrete inputs. -/
theorem c4_cache_slot_selection_witness :
    compute_cache_slot ⟨some 10, some 20⟩ ⟨.MinContent, .MinContent⟩ = 0 ∧
    compute_cache_slot ⟨some 10, none⟩ ⟨.MinContent, .MaxContent⟩ = 1 ∧
    compute_cache_slot ⟨none, some 20⟩ ⟨.Definite 30, .MinContent⟩ = 1 ∧
    compute_cache_slot ⟨some 10, none⟩ ⟨.MaxContent, .MinContent⟩ = 2 ∧
    compute_cache_slot ⟨none, some 20⟩ ⟨.MinContent, .MaxContent⟩ = 2 ∧
    compute_cache_slot ⟨none, none⟩ ⟨.MaxContent, .MinContent⟩ = 3 ∧
    compute_cache_slot ⟨none, none⟩ ⟨.MinContent, .MaxContent⟩ = 4 ∧
    ((compute_node_layout leafOnlyAlgs c4demoLeaf ⟨none, none⟩ Size.NONE
        ⟨.Definite 100, .Definite 100⟩ RunMode.PeformLayout
        SizingMode.InherentSize).2.1).state.cache.get 3 =
      some { known_dimensions := ⟨none, none⟩,
             available_space := ⟨.Definite 100, .Definite 100⟩,
             run_mode := RunMode.PeformLayout,
             cached_size := ⟨10, 10⟩ } := by
  refine ⟨(c4_cache_slot_selection.1 _ _).1 rfl rfl,
    (c4_cache_slot_selection.1 _ _).2.1 rfl rfl (Or.inl rfl),
    (c4_cache_slot_selection.1 _ _).2.2.1 rfl rfl (Or.inr rfl),
    (c4_cache_slot_selection.1 _ _).2.2.2.1 rfl rfl rfl,
    (c4_cache_slot_selection.1 _ _).2.2.2.2.1 rfl rfl rfl,
    (c4_cache_slot_selection.1 _ _).2.2.2.2.2.1 rfl rfl (Or.inl rfl),
    (c4_cache_slot_selection.1 _ _).2.2.2.2.2.2 rfl rfl rfl, ?_⟩
  exact c4_cache_slot_selection.2 leafOnlyAlgs c4demoLeaf ⟨none, none⟩ Size.NONE
    ⟨.Definite 100, .Definite 100⟩ RunMode.PeformLayout SizingMode.InherentSize (by decide)

/-- C1 (amended): `compute_from_cache` returns a hit iff, scanning the five
slots in index order, some occupied entry satisfies the axis conditions and is
not a `ComputeSize` entry under a `PerformLayout` query, while every
earlier-indexed occupied entry neither satisfies the axis conditions nor is
such a `ComputeSize` entry — an occupied `ComputeSize` entry encountered under
a `PerformLayout` query aborts the whole lookup even when a later entry
matches.  When it returns a hit, the value is that matching entry's
`cached_size`. -/
theorem c1_cache_hit_scan (cache : CacheArray) (kd : Size (Option ℚ))
    (avail : Size AvailableSpace) (rm : RunMode) (sm : SizingMode) (s : Size ℚ) :
    compute_from_cache cache kd avail rm sm = some s ↔
      ∃ i e, cache.toList.get? i = some (some e) ∧ entryBlocks e rm = false ∧
        entryMatches e kd avail sm = true ∧ s = e.cached_size ∧
        (cache.toList.take i).all (entrySkipped kd avail rm sm) = true :=
  computeFromCacheList_some_iff kd avail rm sm cache.toList s

/-- C1 witness: on `c7demo`'s cache (one matching entry in slot 3) the scan
characterization yields the hit. -/
theorem c1_cache_hit_scan_witness :
    compute_from_cache (CacheArray.mk none none none (some c7entry) none) Size.NONE
      ⟨.Definite 100, .Definite 100⟩ RunMode.PeformLayout SizingMode.InherentSize =
      some ⟨7, 8⟩ :=
  (c1_cache_hit_scan (CacheArray.mk none none none (some c7entry) none) Size.NONE
    ⟨.Definite 100, .Definite 100⟩ RunMode.PeformLayout SizingMode.InherentSize
    ⟨7, 8⟩).mpr ⟨3, c7entry, by decide, by decide, by decide, by decide, by decide⟩

/-- C1 counterexample: slot 0 holds a `ComputeSize` entry and slot 1 an entry
that satisfies the claim's hit predicate for a `PerformLayout` query, yet
`compute_from_cache` returns `none` — the claimed "hit iff at least one of the
five entries satisfies the hit predicate" is false on the code. -/
theorem c1_counterexample :
    claimHitPred c1matchEntry Size.NONE ⟨.Definite 100, .Definite 100⟩
        RunMode.PeformLayout SizingMode.InherentSize = true ∧
      c1demoCache.toList.get? 1 = some (some c1matchEntry) ∧
      compute_from_cache c1demoCache Size.NONE ⟨.Definite 100, .Definite 100⟩
        RunMode.PeformLayout SizingMode.InherentSize = none :=
  ⟨by decide, rfl, by decide⟩

/-- C2 (amended): the rounding pass stores, for every node, exactly the
per-record direct rounding of the unrounded layout — `size = round(size)` and
`location = round(location)` on each axis — independently of the cumulative
absolute coordinates it threads through the recursion (they are computed and
passed down but never used). -/
theorem c2_rounding_formula (t : LTree) (abs_x abs_y : ℚ) :
    round_layout t abs_x abs_y = roundedTree t ∧
      ∀ l : Layout, roundLayoutRecord l =
        { order := l.order,
          size := ⟨round l.size.width, round l.size.height⟩,
          location := ⟨round l.location.x, round l.location.y⟩ } :=
  ⟨round_layout_eq_roundedTree t abs_x abs_y, fun _ => rfl⟩

/-- C2 counterexample: in `c2tree` the child has unrounded location `0.3` and
width `1.4`, so its absolute coordinate is `0.3`; the claim's formula
`round(absolute + size) − round(absolute)` gives `2`, but the rounding pass
stores `round(1.4) = 1`. -/
theorem c2_counterexample :
    ((round_layout c2tree 0 0).childLayout 0).map (fun l => l.size.width) = some 1 ∧
      round (0 + 0 + 3 / 10 + 14 / 10) - round (0 + 0 + 3 / 10) = 2 ∧
      (1 : ℚ) ≠ 2 :=
  ⟨by decide, by decide, by norm_num⟩

theorem roundedTree_childLayout (t : LTree) (i : ℕ) :
    (roundedTree t).childLayout i = (t.childLayout i).map roundLayoutRecord := by
  cases t with
  | mk st f =>
    simp only [LTree.childLayout, LTree.forest, roundedTree]
    rw [roundedForest_get]
    cases h : f.get i with
    | none => rfl
    | some c => cases c with | mk st2 f2 => rfl

theorem mainStart_roundLayoutRecord (l : Layout) (col : Bool) :
    (roundLayoutRecord l).mainStart col = round (l.mainStart col) := by
  cases col <;> rfl

theorem mainExtent_roundLayoutRecord (l : Layout) (col : Bool) :
    (roundLayoutRecord l).mainExtent col = round (l.mainExtent col) := by
  cases col <;> rfl

theorem round_sum_near (A S B : ℚ) (h : A + S = B) :
    |round (round A + round S) - round B| ≤ 1 := by
  obtain ⟨nA, hA⟩ := round_isInt A
  obtain ⟨nS, hS⟩ := round_isInt S
  obtain ⟨nB, hB⟩ := round_isInt B
  have hsum : round A + round S = ((nA + nS : ℤ) : ℚ) := by
    rw [hA, hS]; push_cast; ring
  rw [hsum, round_intCast, hB]
  have h1 : |(nA : ℚ) - A| ≤ 1 / 2 := hA ▸ abs_round_sub_le A
  have h2 : |(nS : ℚ) - S| ≤ 1 / 2 := hS ▸ abs_round_sub_le S
  have h3 : |(nB : ℚ) - B| ≤ 1 / 2 := hB ▸ abs_round_sub_le B
  have key : |((nA + nS - nB : ℤ) : ℚ)| ≤ 3 / 2 := by
    have : ((nA + nS - nB : ℤ) : ℚ) =
        ((nA : ℚ) - A) + ((nS : ℚ) - S) - ((nB : ℚ) - B) := by
      push_cast
      linarith [h]
    rw [this]
    calc |((nA : ℚ) - A) + ((nS : ℚ) - S) - ((nB : ℚ) - B)|
        ≤ |((nA : ℚ) - A) + ((nS : ℚ) - S)| + |(nB : ℚ) - B| := abs_sub _ _
      _ ≤ |(nA : ℚ) - A| + |(nS : ℚ) - S| + |(nB : ℚ) - B| := by
          have := abs_add ((nA : ℚ) - A) ((nS : ℚ) - S)
          linarith
      _ ≤ 3 / 2 := by linarith
  have hint : |nA + nS - nB| ≤ 1 := by
    by_contra hc
    push_neg at hc
    have h2le : (2 : ℤ) ≤ |nA + nS - nB| := hc
    have : (2 : ℚ) ≤ |((nA + nS - nB : ℤ) : ℚ)| := by
      rw [← Int.cast_abs]
      exact_mod_cast h2le
    linarith
  have : ((nA + nS : ℤ) : ℚ) - (nB : ℚ) = ((nA + nS - nB : ℤ) : ℚ) := by
    push_cast; ring
  rw [this, ← Int.cast_abs]
  exact_mod_cast hint

/-- C3 (amended): after the rounding pass, two siblings that were exactly flush
on the main axis before rounding can differ by at most one pixel: with `a2`,
`b2` the final (rounded) layouts of siblings whose unrounded layouts `a`, `b`
satisfied `a.main_start + a.main_extent = b.main_start`, the final layouts
satisfy `|round(a2.main_start + a2.main_extent) − round(b2.main_start)| ≤ 1`.
The claimed exact equality fails on the code (see the counterexample): the
pass rounds each size in place instead of rounding far edges in absolute
coordinates, so one-pixel seams can appear. -/
theorem c3_flush_siblings_within_one (t : LTree) (abs_x abs_y : ℚ) (col : Bool)
    (i j : ℕ) (a b a2 b2 : Layout)
    (ha : t.childLayout i = some a) (hb : t.childLayout j = some b)
    (hflush : a.mainStart col + a.mainExtent col = b.mainStart col)
    (ha2 : (round_layout t abs_x abs_y).childLayout i = some a2)
    (hb2 : (round_layout t abs_x abs_y).childLayout j = some b2) :
    |round (a2.mainStart col + a2.mainExtent col) - round (b2.mainStart col)| ≤ 1 := by
  rw [round_layout_eq_roundedTree, roundedTree_childLayout, ha] at ha2
  rw [round_layout_eq_roundedTree, roundedTree_childLayout, hb] at hb2
  obtain rfl : roundLayoutRecord a = a2 := by injection ha2
  obtain rfl : roundLayoutRecord b = b2 := by injection hb2
  rw [mainStart_roundLayoutRecord, mainExtent_roundLayoutRecord,
    mainStart_roundLayoutRecord, round_round]
  exact round_sum_near _ _ _ hflush

/-- C3 witness: for the concrete flush pair of `c3flushTree` (spans
`[0.3, 1.7)` and `[1.7, 2.7)` on the x axis) the rounded layouts are within
one pixel. -/
theorem c3_flush_siblings_within_one_witness :
    |round ((Layout.mk 0 ⟨1, 1⟩ ⟨0, 0⟩).mainStart false +
        (Layout.mk 0 ⟨1, 1⟩ ⟨0, 0⟩).mainExtent false) -
      round ((Layout.mk 1 ⟨1, 1⟩ ⟨2, 0⟩).mainStart false)| ≤ 1 :=
  c3_flush_siblings_within_one c3flushTree 0 0 false 0 1
    { order := 0, size := ⟨14 / 10, 1⟩, location := ⟨3 / 10, 0⟩ }
    { order := 1, size := ⟨1, 1⟩, location := ⟨17 / 10, 0⟩ }
    { order := 0, size := ⟨1, 1⟩, location := ⟨0, 0⟩ }
    { order := 1, size := ⟨1, 1⟩, location := ⟨2, 0⟩ }
    (by decide) (by decide) (by decide) (by decide) (by decide)

/-- C3 counterexample: running the full `compute_layout` (with the
spec-modelled column flexbox emission) on `c3tree`, children 1 and 2 are
exactly flush before rounding (both edges at `1.7`), but in the final layouts
`round(a.location.main + a.size.main) = 1` while `round(b.location.main) = 2`:
the rounding pass introduces a one-pixel seam, refuting the claimed exact
equality. -/
theorem c3_counterexample :
    ((c3unrounded.childLayout 1).map fun l => l.location.y + l.size.height) =
        some (17 / 10) ∧
      ((c3unrounded.childLayout 2).map fun l => l.location.y) = some (17 / 10) ∧
      ((c3final.childLayout 1).map fun l => round (l.location.y + l.size.height)) =
        some 1 ∧
      ((c3final.childLayout 2).map fun l => round l.location.y) = some 2 ∧
      (1 : ℚ) ≠ 2 :=
  ⟨by decide, by decide, by decide, by decide, by norm_num⟩

/-- C5 (amended): for a node with `display: None` that has at least one child,
on a cache miss the dispatch computes its size as `(0, 0)` and recursively
zeroes every strict descendant's layout record; when such a node is the root
of a `compute_layout` pass, every layout record in its subtree (its own
included) is zero after the pass.  (A childless `display: None` node is
instead sized by the leaf algorithm — see the counterexample.) -/
theorem c5_hidden_zeroing (algs : Algorithms) (t : LTree)
    (kd parent_size : Size (Option ℚ)) (avail avail2 : Size AvailableSpace)
    (rm : RunMode) (sm : SizingMode)
    (hdisp : t.state.style.display = .None) (hne : t.is_childless = false)
    (hmiss : compute_from_cache t.state.cache kd avail rm sm = none) :
    (compute_node_layout algs t kd parent_size avail rm sm).1 = Size.ZERO ∧
      forestAllZero ((compute_node_layout algs t kd parent_size avail rm sm).2.1).forest =
        true ∧
      (compute_from_cache t.state.cache Size.NONE avail2 RunMode.PeformLayout
          SizingMode.InherentSize = none →
        treeAllZero (compute_layout algs t avail2).2.1 = true) := by
  have hrun : ∀ (kd2 parent_size2 : Size (Option ℚ)) (avail3 : Size AvailableSpace)
      (rm2 : RunMode) (sm2 : SizingMode),
      compute_from_cache t.state.cache kd2 avail3 rm2 sm2 = none →
      compute_node_layout algs t kd2 parent_size2 avail3 rm2 sm2 =
        (Size.ZERO,
         (LTree.mk t.state (hiddenForest t.forest 0)).setCache
           (compute_cache_slot kd2 avail3)
           (some { known_dimensions := kd2, available_space := avail3,
                   run_mode := rm2, cached_size := Size.ZERO }),
         []) := by
    intro kd2 parent_size2 avail3 rm2 sm2 hmiss2
    simp only [compute_node_layout, hne, Bool.false_eq_true, if_false, hmiss2, hdisp,
      perform_hidden_layout]
  refine ⟨?_, ?_, ?_⟩
  · rw [hrun kd parent_size avail rm sm hmiss]
  · rw [hrun kd parent_size avail rm sm hmiss]
    exact forestAllZero_hidden t.forest 0
  · intro hm2
    show treeAllZero (compute_layout algs t avail2).2.1 = true
    simp only [compute_layout, hrun Size.NONE avail2.into_options avail2
      RunMode.PeformLayout SizingMode.InherentSize hm2]
    rw [round_layout_eq_roundedTree]
    apply treeAllZero_rounded
    simp only [LTree.setCache, LTree.setLayout, LTree.state, LTree.forest, treeAllZero]
    show (Size.ZERO == Size.ZERO && Point.ZERO == Point.ZERO &&
      forestAllZero (hiddenForest t.forest 0)) = true
    simp [forestAllZero_hidden]

/-- C5 witness: the hidden pass on the concrete `c5hidden` subtree returns
`(0, 0)`, zeroes both children and the grandchild, and as a root pass zeroes
the whole subtree. -/
theorem c5_hidden_zeroing_witness :
    (compute_node_layout leafOnlyAlgs c5hidden Size.NONE Size.NONE demoAvail
        RunMode.PeformLayout SizingMode.InherentSize).1 = Size.ZERO ∧
      forestAllZero ((compute_node_layout leafOnlyAlgs c5hidden Size.NONE Size.NONE
        demoAvail RunMode.PeformLayout SizingMode.InherentSize).2.1).forest = true ∧
      treeAllZero (compute_layout leafOnlyAlgs c5hidden demoAvail).2.1 = true := by
  have h := c5_hidden_zeroing leafOnlyAlgs c5hidden Size.NONE Size.NONE demoAvail
    demoAvail RunMode.PeformLayout SizingMode.InherentSize rfl rfl (by decide)
  exact ⟨h.1, h.2.1, h.2.2 (by decide)⟩

/-- C5 counterexample: a childless node with `display: None` and style size
50 × 50 is dispatched to the leaf algorithm (the childless test precedes the
display match), which sizes it `(50, 50)`, not `(0, 0)`: the claim's "every
node whose style has display = None" fails for childless nodes. -/
theorem c5_counterexample :
    c5leafNone.state.style.display = Display.None ∧
      (compute_node_layout leafOnlyAlgs c5leafNone Size.NONE ⟨some 200, some 200⟩
        demoAvail RunMode.PeformLayout SizingMode.InherentSize).1 = ⟨50, 50⟩ ∧
      (⟨50, 50⟩ : Size ℚ) ≠ Size.ZERO :=
  ⟨rfl, by decide, by decide⟩

theorem lookup_after_root_write (avail : Size AvailableSpace) (s : Size ℚ)
    (sm : SizingMode) :
    compute_from_cache
      (CacheArray.empty.set (compute_cache_slot Size.NONE avail)
        (some { known_dimensions := Size.NONE, available_space := avail,
                run_mode := RunMode.PeformLayout, cached_size := s }))
      Size.NONE avail RunMode.PeformLayout sm = some s := by
  have hmatch : entryMatches
      { known_dimensions := Size.NONE, available_space := avail,
        run_mode := RunMode.PeformLayout, cached_size := s } Size.NONE avail sm = true := by
    simp [entryMatches, Size.NONE, is_roughly_equal_refl]
  by_cases h : avail.width == AvailableSpace.MinContent
  · have hslot : compute_cache_slot Size.NONE avail = 4 := by
      simp [compute_cache_slot, Size.NONE, h]
    rw [hslot]
    simp [compute_from_cache, CacheArray.set, CacheArray.toList, CacheArray.empty,
      computeFromCacheList, entryBlocks, hmatch]
  · have hslot : compute_cache_slot Size.NONE avail = 3 := by
      simp [compute_cache_slot, Size.NONE, h]
    rw [hslot]
    simp [compute_from_cache, CacheArray.set, CacheArray.toList, CacheArray.empty,
      computeFromCacheList, entryBlocks, hmatch]

theorem is_childless_mk_roundedForest (st st2 : NodeState) (f : LForest) :
    (LTree.mk st (roundedForest f)).is_childless = (LTree.mk st2 f).is_childless := by
  cases f <;> rfl

theorem roundedTree_mk (st : NodeState) (f : LForest) :
    roundedTree (.mk st f) =
      .mk { st with layout := roundLayoutRecord st.layout } (roundedForest f) := rfl

/-- C8 (amended): with a fresh root cache and child algorithms that leave the
queried node's own state untouched (as the real ones do), running
`compute_layout` twice with unchanged inputs returns the identical tree on the
second run — bit-identical `Layout` records — and the second run
short-circuits at the root: the root's cache lookup hits and is the only cache
hit of the whole pass, so descendant nodes (non-leaf descendants included) are
never queried and produce no hit. -/
theorem c8_second_run_short_circuits (algs : Algorithms) (t : LTree)
    (avail : Size AvailableSpace)
    (hne : t.is_childless = false)
    (hdisp : t.state.style.display = Display.Flex)
    (hcache : t.state.cache = CacheArray.empty)
    (halg_state : ∀ (t2 : LTree) (kd ps : Size (Option ℚ)) (av : Size AvailableSpace)
      (rm : RunMode), ((algs.flexboxCompute t2 kd ps av rm).2.1).state = t2.state)
    (halg_childless : ∀ (t2 : LTree) (kd ps : Size (Option ℚ)) (av : Size AvailableSpace)
      (rm : RunMode),
      ((algs.flexboxCompute t2 kd ps av rm).2.1).is_childless = t2.is_childless) :
    compute_layout algs (compute_layout algs t avail).2.1 avail =
      (Except.ok (), (compute_layout algs t avail).2.1, [t.state.id]) := by
  cases t with
  | mk st f =>
  have hca : st.cache = CacheArray.empty := hcache
  have hdi : st.style.display = Display.Flex := hdisp
  rcases hFB : algs.flexboxCompute (LTree.mk st f) Size.NONE avail.into_options avail
    RunMode.PeformLayout with ⟨s, t1, log⟩
  cases t1 with
  | mk st1 f1 =>
  have hst1 : st1 = st := by
    have h := halg_state (LTree.mk st f) Size.NONE avail.into_options avail
      RunMode.PeformLayout
    rw [hFB] at h
    exact h
  rw [hst1] at hFB
  have hf1 : (LTree.mk st f1).is_childless = false := by
    have h := halg_childless (LTree.mk st f) Size.NONE avail.into_options avail
      RunMode.PeformLayout
    rw [hFB] at h
    exact h.trans hne
  have hmiss : compute_from_cache CacheArray.empty Size.NONE avail RunMode.PeformLayout
      SizingMode.InherentSize = none := rfl
  have hfirst : compute_layout algs (LTree.mk st f) avail =
      (Except.ok (),
       roundedTree (LTree.mk
         { st with
           layout := { order := 0, size := s, location := Point.ZERO }
           cache := CacheArray.empty.set (compute_cache_slot Size.NONE avail)
             (some { known_dimensions := Size.NONE, available_space := avail,
                     run_mode := RunMode.PeformLayout, cached_size := s }) } f1),
       log) := by
    simp only [compute_layout, compute_node_layout, LTree.state, hne, Bool.false_eq_true,
      if_false, hmiss, hdi, hFB, LTree.setCache, LTree.setLayout, LTree.forest, hca,
      round_layout_eq_roundedTree]
  rw [hfirst]
  show compute_layout algs (roundedTree _) avail = (Except.ok (), roundedTree _, [st.id])
  have hccl : (roundedTree (LTree.mk
      { st with
        layout := { order := 0, size := s, location := Point.ZERO }
        cache := CacheArray.empty.set (compute_cache_slot Size.NONE avail)
          (some { known_dimensions := Size.NONE, available_space := avail,
                  run_mode := RunMode.PeformLayout, cached_size := s }) } f1)).is_childless =
      false := by
    rw [show roundedTree (LTree.mk
      { st with
        layout := { order := 0, size := s, location := Point.ZERO }
        cache := CacheArray.empty.set (compute_cache_slot Size.NONE avail)
          (some { known_dimensions := Size.NONE, available_space := avail,
                  run_mode := RunMode.PeformLayout, cached_size := s }) } f1) =
      LTree.mk _ (roundedForest f1) from rfl]
    rw [is_childless_mk_roundedForest _ st f1]
    exact hf1
  have hlook : compute_from_cache (roundedTree (LTree.mk
      { st with
        layout := { order := 0, size := s, location := Point.ZERO }
        cache := CacheArray.empty.set (compute_cache_slot Size.NONE avail)
          (some { known_dimensions := Size.NONE, available_space := avail,
                  run_mode := RunMode.PeformLayout, cached_size := s }) } f1)).state.cache
      Size.NONE avail RunMode.PeformLayout SizingMode.InherentSize = some s :=
    lookup_after_root_write avail s SizingMode.InherentSize
  simp only [compute_layout, compute_node_layout, hccl, Bool.false_eq_true, if_false,
    hlook, LTree.setLayout, round_layout_eq_roundedTree]
  simp only [roundedTree_mk, LTree.state, LTree.forest, roundedForest_idem]

/-- C8 witness: on the concrete two-level `c8tree` with the spec-modelled
column algorithms, the second `compute_layout` run returns the first run's
tree unchanged with exactly one cache hit, at the root (id 0). -/
theorem c8_second_run_short_circuits_witness :
    compute_layout demoAlgs2 c8first demoAvail = (Except.ok (), c8first, [0]) :=
  c8_second_run_short_circuits demoAlgs2 c8tree demoAvail rfl rfl rfl
    (fun t2 kd ps av rm => rfl)
    (fun t2 kd ps av rm => by cases t2 with | mk st2 f2 => cases f2 <;> rfl)

/-- C8 counterexample: on `c8tree` (root id 0 with a non-leaf child id 1) the
second run's hit log is `[0]` — node 1 is never queried and produces no cache
hit — so the claim's "every non-leaf node produces at least one cache hit
during the second run" is false (even though the layouts are bit-identical). -/
theorem c8_counterexample :
    ¬ (layoutsIdentical c8secondTree c8first = true ∧
        ∀ n ∈ nonLeafIdsT c8tree, n ∈ c8secondLog) := by
  intro h
  have h2 := h.2 1 (by decide)
  exact absurd h2 (by decide)

end Taffy
